import Mathlib

/-!
Shallow embedding of the analysis engine of `stock-price-analyzer`
(`src/src/analysis/llmAnalyzer.js`, class `PriceAnalyzer`), together with
theorems settling the specification claims about it.

Modelling conventions:
* JavaScript numbers are modelled as `ℚ` wherever the source only performs
  field arithmetic and comparisons; the volatility classifier, which uses
  `Math.log`/`Math.sqrt`, is modelled over `ℝ`.
* A JavaScript division whose divisor is `0` produces `NaN` or `±Infinity`;
  where that matters (the ADX pipeline) values are carried as `Option ℚ`
  with `none` standing for a non-finite number, and `jsDiv` returns `none`
  exactly on a zero divisor.
* Fallible operations return `Except`; external collaborators (database,
  HTTP quote provider, the `technicalindicators` npm package) enter as
  explicit oracle arguments.
-/

/-- PriceBar: one OHLCV bar as produced by `getStockDataFromDB`
(`{date, open, high, low, close, volume}`); `open'` models the `open`
field (renamed because `open` is a Lean keyword). -/
structure PriceBar where
  date : String
  open' : ℚ
  high : ℚ
  low : ℚ
  close : ℚ
  volume : ℚ
deriving Repr

/-- Transcription of `calculateSMA(data, period)`: the JS loop pushes, for
each `i` from `period-1` to `data.length-1`, the mean of
`data.slice(i-period+1, i+1)`; equivalently the mean of every window of
`period` consecutive entries, left to right.  When `data.length < period`
the loop body never runs and the result is empty. -/
def calculateSMA (data : List ℚ) (period : ℕ) : List ℚ :=
  match data with
  | [] => []
  | d :: ds =>
    if period ≤ ds.length + 1 then
      ((d :: ds).take period).sum / period :: calculateSMA ds period
    else []

/-- Division as JavaScript performs it: a zero divisor yields a non-finite
number (`NaN` or `±Infinity`), modelled as `none`. -/
def jsDiv (a b : ℚ) : Option ℚ :=
  if b = 0 then none else some (a / b)

/-- Sum of a list of possibly non-finite numbers, as JS
`reduce((a, b) => a + b, 0)`: any `NaN` in the list makes the sum `NaN`. -/
def oSum (l : List (Option ℚ)) : Option ℚ :=
  l.foldl (fun acc x => acc.bind (fun a => x.map (fun b => a + b))) (some 0)

/-- Transcription of `calculateSMA` applied to a list that may contain
non-finite entries (the DX series inside `calculateADX`): each window mean
is the (NaN-absorbing) window sum divided by `period`. -/
def smaOption (data : List (Option ℚ)) (period : ℕ) : List (Option ℚ) :=
  match data with
  | [] => []
  | d :: ds =>
    if period ≤ ds.length + 1 then
      (oSum ((d :: ds).take period)).map (fun s => s / period) :: smaOption ds period
    else []

/-- True-range series of `calculateADX`: for each `i ≥ 1`,
`max(|high[i]-low[i]|, |high[i]-close[i-1]|, |low[i]-close[i-1]|)`. -/
def trueRangeList : List ℚ → List ℚ → List ℚ → List ℚ
  | _ :: h1 :: hs, _ :: l1 :: ls, c0 :: c1 :: cs =>
    max |h1 - l1| (max |h1 - c0| (|l1 - c0|)) ::
      trueRangeList (h1 :: hs) (l1 :: ls) (c1 :: cs)
  | _, _, _ => []

/-- Plus directional movement series of `calculateADX`: for each `i ≥ 1`,
`upMove = high[i] - high[i-1]`, `downMove = low[i-1] - low[i]`, and the
entry is `upMove` when `upMove > downMove && upMove > 0`, else `0`. -/
def plusDMList : List ℚ → List ℚ → List ℚ
  | h0 :: h1 :: hs, l0 :: l1 :: ls =>
    (if l0 - l1 < h1 - h0 ∧ 0 < h1 - h0 then h1 - h0 else 0) ::
      plusDMList (h1 :: hs) (l1 :: ls)
  | _, _ => []

/-- Minus directional movement series of `calculateADX`: the entry is
`downMove` when `downMove > upMove && downMove > 0`, else `0`. -/
def minusDMList : List ℚ → List ℚ → List ℚ
  | h0 :: h1 :: hs, l0 :: l1 :: ls =>
    (if h1 - h0 < l0 - l1 ∧ 0 < l0 - l1 then l0 - l1 else 0) ::
      minusDMList (h1 :: hs) (l1 :: ls)
  | _, _ => []

/-- Plus directional indicator of `calculateADX`:
`this.calculateSMA(plusDM, period).map((dm, i) => (dm * 100) / atr[i])`
with `atr = calculateSMA(trueRange, period)`; a zero ATR entry makes the
JS quotient non-finite. -/
def adxPlusDI (highs lows closes : List ℚ) (period : ℕ) : List (Option ℚ) :=
  List.zipWith (fun dm a => jsDiv (dm * 100) a)
    (calculateSMA (plusDMList highs lows) period)
    (calculateSMA (trueRangeList highs lows closes) period)

/-- Minus directional indicator of `calculateADX`, symmetric to
`adxPlusDI`. -/
def adxMinusDI (highs lows closes : List ℚ) (period : ℕ) : List (Option ℚ) :=
  List.zipWith (fun dm a => jsDiv (dm * 100) a)
    (calculateSMA (minusDMList highs lows) period)
    (calculateSMA (trueRangeList highs lows closes) period)

/-- DX series of `calculateADX`:
`plusDI.map((plus, i) => Math.abs(plus - minusDI[i]) / (plus + minusDI[i]) * 100)`.
The source divides without guarding the divisor `plus + minusDI[i]`; when
it is `0` JavaScript computes `0/0 = NaN`, modelled as `none`. -/
def adxDX (highs lows closes : List ℚ) (period : ℕ) : List (Option ℚ) :=
  List.zipWith
    (fun p m =>
      p.bind fun pv => m.bind fun mv =>
        (jsDiv |pv - mv| (pv + mv)).map (fun q => q * 100))
    (adxPlusDI highs lows closes period)
    (adxMinusDI highs lows closes period)

/-- Transcription of `calculateADX(highs, lows, closes, period = 14)`:
the trailing SMA of the DX series (the source deliberately uses plain SMA
smoothing, not Wilder smoothing). -/
def calculateADX (highs lows closes : List ℚ) (period : ℕ) : List (Option ℚ) :=
  smaOption (adxDX highs lows closes period) period

/-- Ratio-labelled Fibonacci level prices: fields `p0 … p100` model the JS
object keys `'0%', '23.6%', '38.2%', '50%', '61.8%', '100%'`. -/
structure FibLevelMap where
  p0 : ℚ
  p236 : ℚ
  p382 : ℚ
  p50 : ℚ
  p618 : ℚ
  p100 : ℚ
deriving Repr

/-- FibonacciLevels result record of `calculateFibonacciLevels`. -/
structure FibonacciLevels where
  high : ℚ
  low : ℚ
  levels : FibLevelMap
deriving Repr

/-- All-zero FibonacciLevels structure returned for fewer than 2 bars. -/
def zeroFibonacciLevels : FibonacciLevels :=
  ⟨0, 0, ⟨0, 0, 0, 0, 0, 0⟩⟩

/-- Transcription of `calculateFibonacciLevels(stockData)`: `high`/`low`
are `Math.max`/`Math.min` over the close column (modelled as a fold over
the non-empty list of closes), and each level is `high - diff * ratio`. -/
def calculateFibonacciLevels (stockData : List PriceBar) : FibonacciLevels :=
  if stockData.length < 2 then zeroFibonacciLevels
  else
    let prices := stockData.map (fun d => d.close)
    let high := prices.foldl max (prices.headD 0)
    let low := prices.foldl min (prices.headD 0)
    let diff := high - low
    ⟨high, low,
      ⟨high, high - diff * 0.236, high - diff * 0.382, high - diff * 0.5,
        high - diff * 0.618, low⟩⟩

/-- One detected support/resistance level `{price, touches, index}`. -/
structure SRLevel where
  price : ℚ
  touches : ℕ
  index : ℕ
deriving Repr, DecidableEq

/-- Stable insertion of a level into a list that is already sorted by
touch count descending; the new element goes after every element with at
least as many touches, matching the stable `Array.prototype.sort` with
comparator `(a, b) => b.touches - a.touches`. -/
def insertByTouchesDesc (a : SRLevel) : List SRLevel → List SRLevel
  | [] => [a]
  | b :: bs =>
    if b.touches < a.touches then a :: b :: bs
    else b :: insertByTouchesDesc a bs

/-- Stable sort by touch count descending, processing the list left to
right, as `levels.sort((a, b) => b.touches - a.touches)` (stable per
ECMA-262). -/
def sortByTouchesDesc (l : List SRLevel) : List SRLevel :=
  l.foldl (fun acc x => insertByTouchesDesc x acc) []

/-- Transcription of `findLevels(data, minTouches)`: for each index `i`
from `2` to `data.length - 3`, the point is a level unless it exceeds an
immediate neighbour by more than the 2% tolerance (the JS code clears
`isLevel` when `current > data[i±1] * (1 + tolerance)`, with the always
true range guards `i > 0` and `i < data.length - 1` kept verbatim); its
touch counter starts at `1` and counts every other index within strict
2% relative tolerance; levels reaching `minTouches` are collected, sorted
by touch count descending, and the first 5 are returned. -/
def findLevels (data : List ℚ) (minTouches : ℕ) : List SRLevel :=
  if data.length < 5 then []
  else
    let tolerance : ℚ := 0.02
    let levels := (List.range' 2 (data.length - 4)).filterMap (fun i =>
      let current := data.getD i 0
      let isLevel : Prop :=
        ¬(0 < i ∧ data.getD (i - 1) 0 * (1 + tolerance) < current) ∧
        ¬(i < data.length - 1 ∧ data.getD (i + 1) 0 * (1 + tolerance) < current)
      if isLevel then
        let touches := 1 + ((List.range data.length).filter
          (fun j => j ≠ i ∧ |data.getD j 0 - current| < current * tolerance)).length
        if minTouches ≤ touches then some ⟨current, touches, i⟩ else none
      else none)
    (sortByTouchesDesc levels).take 5

/-- SupportResistance result record of `findSupportResistanceLevels`. -/
structure SupportResistance where
  support : List SRLevel
  resistance : List SRLevel
deriving Repr, DecidableEq

/-- Transcription of `findSupportResistanceLevels(stockData)`: support
levels from the low column, resistance levels from the high column, both
via `findLevels` with `minTouches = 2`; fewer than 5 bars gives empty
lists. -/
def findSupportResistanceLevels (stockData : List PriceBar) : SupportResistance :=
  if stockData.length < 5 then ⟨[], []⟩
  else
    ⟨findLevels (stockData.map (fun d => d.low)) 2,
      findLevels (stockData.map (fun d => d.high)) 2⟩

/-- Moving averages bundle `{short, medium, long}` of `analyzeTrends`. -/
structure MovingAverages where
  short : ℚ
  medium : ℚ
  long : ℚ
deriving Repr, DecidableEq

/-- TrendState `{trend, movingAverages}` of `analyzeTrends`. -/
structure TrendState where
  trend : String
  movingAverages : Option MovingAverages
deriving Repr, DecidableEq

/-- Substring check modelling JavaScript `String.prototype.includes`. -/
def strIncludes (s pat : String) : Bool :=
  s.toList.tails.any (fun t => pat.toList.isPrefixOf t)

/-- Transcription of `analyzeTrends(stockData)`: below 200 bars the trend
is `"neutral"` with no moving averages; otherwise the last SMA(20)/(50)/
(200) values and the last close are compared with the strict orderings of
the source's `if`/`else if` chain. -/
def analyzeTrends (stockData : List PriceBar) : TrendState :=
  if stockData.length < 200 then ⟨"neutral", none⟩
  else
    let closes := stockData.map (fun d => d.close)
    let sma20 := calculateSMA closes 20
    let sma50 := calculateSMA closes 50
    let sma200 := calculateSMA closes 200
    if sma20.length = 0 ∨ sma50.length = 0 ∨ sma200.length = 0 then ⟨"neutral", none⟩
    else
      let ma : MovingAverages := ⟨sma20.getLastD 0, sma50.getLastD 0, sma200.getLastD 0⟩
      let currentPrice := closes.getLastD 0
      let trend :=
        if ma.short < currentPrice ∧ ma.medium < ma.short ∧ ma.long < ma.medium then
          "strong_uptrend"
        else if ma.short < currentPrice ∧ ma.medium < ma.short then "uptrend"
        else if currentPrice < ma.short ∧ ma.short < ma.medium ∧ ma.medium < ma.long then
          "strong_downtrend"
        else if currentPrice < ma.short ∧ ma.short < ma.medium then "downtrend"
        else "neutral"
      ⟨trend, some ma⟩

/-- VolatilityState `{standardDeviation, annualizedVolatility,
currentLevel}` of `calculateVolatility`; the two numeric fields live in
`ℝ` because the source uses `Math.log` and `Math.sqrt`. -/
structure VolatilityState where
  standardDeviation : ℝ
  annualizedVolatility : ℝ
  currentLevel : String

open scoped Classical

/-- Volatility tier of `calculateVolatility`: the nested ternary
`volatility > 0.25 ? 'high' : volatility > 0.15 ? 'medium' : 'low'`. -/
noncomputable def volTier (volatility : ℝ) : String :=
  if 0.25 < volatility then "high"
  else if 0.15 < volatility then "medium" else "low"

/-- Transcription of `calculateVolatility(stockData, period = 20)`: the
most recent `min(period, length)` closes, log returns between consecutive
closes, the standard deviation of those returns (variance divided by the
number of returns, as in the source), annualized by `√252`, tiered at
`0.25` and `0.15`.  Fewer than 2 bars yields the zeroed low default. -/
noncomputable def calculateVolatility (stockData : List PriceBar) (period : ℕ) :
    VolatilityState :=
  if stockData.length < 2 then ⟨0, 0, "low"⟩
  else
    let actualPeriod := min period stockData.length
    let closes := (stockData.drop (stockData.length - actualPeriod)).map
      (fun d => (d.close : ℝ))
    if closes.length < 2 then ⟨0, 0, "low"⟩
    else
      let returns := List.zipWith (fun prev cur => Real.log (cur / prev))
        closes closes.tail
      let mean := returns.sum / (returns.length : ℝ)
      let variance := (returns.map (fun b => (b - mean) ^ 2)).sum / (returns.length : ℝ)
      let volatility := Real.sqrt variance * Real.sqrt 252
      ⟨Real.sqrt variance, volatility, volTier volatility⟩

/-- Per-bar entry of the Bollinger band sequence, as mapped by
`calculateTechnicalIndicators` from the npm library output. -/
structure BollingerEntry where
  upperBand : ℚ
  middleBand : ℚ
  lowerBand : ℚ
  pb : ℚ
deriving Repr, DecidableEq

/-- Per-bar entry of the MACD sequence from the npm library. -/
structure MacdEntry where
  macdLine : ℚ
  signalLine : ℚ
  histogram : ℚ
deriving Repr, DecidableEq

/-- IndicatorSet of `calculateTechnicalIndicators`; each field is `none`
when its minimum sample size is unmet. -/
structure IndicatorSet where
  sma20 : Option (List ℚ)
  sma50 : Option (List ℚ)
  sma200 : Option (List ℚ)
  ema12 : Option (List ℚ)
  ema26 : Option (List ℚ)
  rsi : Option (List ℚ)
  macd : Option (List MacdEntry)
  bollinger : Option (List BollingerEntry)
  adx : Option (List (Option ℚ))

/-- Oracle for the external `technicalindicators` npm package (EMA, RSI,
MACD, BollingerBands are library calls, not code of this repository);
`calculateSMA` and `calculateADX` are local and modelled exactly. -/
structure TILib where
  emaCalc : ℕ → List ℚ → List ℚ
  rsiOf : ℕ → List ℚ → List ℚ
  macdCalc : List ℚ → List MacdEntry
  bollingerCalc : List ℚ → List BollingerEntry

/-- Transcription of `calculateTechnicalIndicators(stockData)`: `null` for
the whole set below 20 bars, and each field independently gated on its own
minimum length exactly as in the source. -/
def calculateTechnicalIndicators (lib : TILib) (stockData : List PriceBar) :
    Option IndicatorSet :=
  if stockData.length < 20 then none
  else
    let closes := stockData.map (fun d => d.close)
    let highs := stockData.map (fun d => d.high)
    let lows := stockData.map (fun d => d.low)
    some
      { sma20 := if 20 ≤ stockData.length then some (calculateSMA closes 20) else none
        sma50 := if 50 ≤ stockData.length then some (calculateSMA closes 50) else none
        sma200 := if 200 ≤ stockData.length then some (calculateSMA closes 200) else none
        ema12 := if 12 ≤ stockData.length then some (lib.emaCalc 12 closes) else none
        ema26 := if 26 ≤ stockData.length then some (lib.emaCalc 26 closes) else none
        rsi := if 14 ≤ stockData.length then some (lib.rsiOf 14 closes) else none
        macd := if 26 ≤ stockData.length then some (lib.macdCalc closes) else none
        bollinger := if 20 ≤ stockData.length then some (lib.bollingerCalc closes) else none
        adx := if 14 ≤ stockData.length then some (calculateADX highs lows closes 14) else none }

/-- Bundle of per-stage results assembled by `analyzeStock` and consumed
by `calculateTargetPrice` and `calculateConfidenceScore`; `none` models a
JavaScript `null` stage result. -/
structure Calculations where
  technical : Option IndicatorSet
  fibonacci : Option FibonacciLevels
  supportResistance : Option SupportResistance
  trends : Option TrendState
  volatility : Option VolatilityState

/-- One weighted price candidate `{price, weight, source}` pushed onto
`priceTargets` in `calculateTargetPrice`. -/
structure PriceCandidate where
  price : ℚ
  weight : ℚ
  source : String
deriving Repr, DecidableEq

/-- Bollinger candidates of `calculateTargetPrice`: when a non-empty
Bollinger sequence is available, the last entry's upper band (weight 0.15)
and middle band (weight 0.10), each skipped when the band value is `0`
(JavaScript number truthiness). -/
def bbTargets (c : Calculations) : List PriceCandidate :=
  match c.technical with
  | some t =>
    match t.bollinger with
    | some bbs =>
      if bbs.length = 0 then []
      else
        let bb := bbs.getLastD ⟨0, 0, 0, 0⟩
        (if bb.upperBand ≠ 0 then [⟨bb.upperBand, 0.15, "bollinger_upper"⟩] else []) ++
        (if bb.middleBand ≠ 0 then [⟨bb.middleBand, 0.10, "bollinger_middle"⟩] else [])
    | none => []
  | none => []

/-- Fibonacci candidate of `calculateTargetPrice`: the 61.8% level (weight
0.20) when the trend label contains `"uptrend"`, else the 38.2% level
(weight 0.20) when it contains `"downtrend"`; skipped when the level value
is `0` (truthiness of `fibonacci.levels['61.8%']`). -/
def fibTargets (c : Calculations) : List PriceCandidate :=
  match c.fibonacci, c.trends with
  | some fib, some tr =>
    if strIncludes tr.trend "uptrend" then
      if fib.levels.p618 ≠ 0 then [⟨fib.levels.p618, 0.20, "fibonacci_up"⟩] else []
    else if strIncludes tr.trend "downtrend" then
      if fib.levels.p382 ≠ 0 then [⟨fib.levels.p382, 0.20, "fibonacci_down"⟩] else []
    else []
  | _, _ => []

/-- Resistance candidate of `calculateTargetPrice`: the first resistance
level's price (weight 0.15) when resistance levels exist and the trend
label contains `"uptrend"`; skipped when that price is `0`. -/
def resTargets (c : Calculations) : List PriceCandidate :=
  match c.supportResistance, c.trends with
  | some sr, some tr =>
    if 0 < sr.resistance.length ∧ strIncludes tr.trend "uptrend" then
      let nearest := sr.resistance.headD ⟨0, 0, 0⟩
      if nearest.price ≠ 0 then [⟨nearest.price, 0.15, "resistance"⟩] else []
    else []
  | _, _ => []

/-- Support candidate of `calculateTargetPrice`: the first support level's
price (weight 0.15) when support levels exist and the trend label contains
`"downtrend"`; skipped when that price is `0`. -/
def supTargets (c : Calculations) : List PriceCandidate :=
  match c.supportResistance, c.trends with
  | some sr, some tr =>
    if 0 < sr.support.length ∧ strIncludes tr.trend "downtrend" then
      let nearest := sr.support.headD ⟨0, 0, 0⟩
      if nearest.price ≠ 0 then [⟨nearest.price, 0.15, "support"⟩] else []
    else []
  | _, _ => []

/-- Moving-average projection candidate of `calculateTargetPrice`: medium
SMA × 1.05 (weight 0.15) in an uptrend, or × 0.95 (weight 0.15) in a
downtrend, when the medium average is available and non-zero. -/
def maTargets (c : Calculations) : List PriceCandidate :=
  match c.trends with
  | some tr =>
    match tr.movingAverages with
    | some ma =>
      if strIncludes tr.trend "uptrend" ∧ ma.medium ≠ 0 then
        [⟨ma.medium * 1.05, 0.15, "ma_projection_up"⟩]
      else if strIncludes tr.trend "downtrend" ∧ ma.medium ≠ 0 then
        [⟨ma.medium * 0.95, 0.15, "ma_projection_down"⟩]
      else []
    | none => []
  | none => []

/-- Candidate list `priceTargets` of `calculateTargetPrice`, in the push
order of the source. -/
def priceTargetsOf (c : Calculations) : List PriceCandidate :=
  bbTargets c ++ fibTargets c ++ resTargets c ++ supTargets c ++ maTargets c

/-- PriceTarget result record of `calculateTargetPrice`; the range bounds
live in `ℝ` because they mix in the annualized volatility. -/
structure PriceTarget where
  price : ℚ
  method : String
  rangeLow : ℝ
  rangeHigh : ℝ
  breakdown : List PriceCandidate

/-- Range half-width of `calculateTargetPrice`:
`(volatility && volatility.annualizedVolatility) ? volatility.annualizedVolatility * base * 0.5 : base * 0.1`;
a `0` annualized volatility is falsy in JavaScript, so it falls into the
`base * 0.1` branch exactly like an absent volatility object. -/
noncomputable def rangeAdjustmentOf (volatility : Option VolatilityState) (base : ℚ) : ℝ :=
  match volatility with
  | some v =>
    if v.annualizedVolatility ≠ 0 then v.annualizedVolatility * base * 0.5
    else (base : ℝ) * 0.1
  | none => (base : ℝ) * 0.1

/-- Transcription of `calculateTargetPrice(calculations, stockData)`: with
zero candidates the target degenerates to the last close with method
`current_price`; otherwise the target is the weight-normalized weighted
mean of the candidates (guarded by `totalWeight > 0`) with method
`weighted_average`, and the range is the target ± `rangeAdjustmentOf`. -/
noncomputable def calculateTargetPrice (calculations : Calculations)
    (stockData : List PriceBar) : PriceTarget :=
  let currentPrice := (stockData.getLastD ⟨"", 0, 0, 0, 0, 0⟩).close
  let priceTargets := priceTargetsOf calculations
  if priceTargets.length = 0 then
    let rangeAdjustment := rangeAdjustmentOf calculations.volatility currentPrice
    ⟨currentPrice, "current_price", currentPrice - rangeAdjustment,
      currentPrice + rangeAdjustment, []⟩
  else
    let totalWeight := (priceTargets.map (fun t => t.weight)).sum
    let targetPrice :=
      if 0 < totalWeight then
        (priceTargets.map (fun t => t.price * t.weight)).sum / totalWeight
      else currentPrice
    let rangeAdjustment := rangeAdjustmentOf calculations.volatility targetPrice
    ⟨targetPrice, "weighted_average", targetPrice - rangeAdjustment,
      targetPrice + rangeAdjustment, priceTargets⟩

/-- ConfidenceScore `{score, level}` of `calculateConfidenceScore`. -/
structure ConfidenceScore where
  score : ℚ
  level : String
deriving Repr, DecidableEq

/-- Return statement of `calculateConfidenceScore`: the score clamped to
`[0, 100]` by `Math.min(100, Math.max(0, score))`, and the level computed
from the raw (pre-clamp) score at thresholds 80 and 60. -/
def clampLevel (score : ℚ) : ConfidenceScore :=
  ⟨min 100 (max 0 score),
    if 80 ≤ score then "high" else if 60 ≤ score then "medium" else "low"⟩

/-- Transcription of `calculateConfidenceScore(calculations, stockData)`:
base 50; RSI present, non-empty and last value in `[30, 70]` gives +10
(present but outside the band: unchanged; absent or empty: −10); a
present, non-empty, non-neutral trend label gives +15 else −15; volatility
tier low/medium gives +10/+5 (high: unchanged; absent tier: −10); at least
2 support or 2 resistance levels gives +10 else −10; sample size ≥200/
≥100/≥50/≥1 gives +15/+5/+0/−20 and an empty series forces the raw score
to exactly 0. -/
def calculateConfidenceScore (calculations : Calculations)
    (stockData : List PriceBar) : ConfidenceScore :=
  let score : ℚ := 50
  let score : ℚ :=
    match calculations.technical with
    | some t =>
      match t.rsi with
      | some r =>
        if 0 < r.length then
          let rsi := r.getLastD 0
          if 30 ≤ rsi ∧ rsi ≤ 70 then score + 10 else score
        else score - 10
      | none => score - 10
    | none => score - 10
  let score : ℚ :=
    match calculations.trends with
    | some tr =>
      if tr.trend ≠ "" ∧ tr.trend ≠ "neutral" then score + 15 else score - 15
    | none => score - 15
  let score : ℚ :=
    match calculations.volatility with
    | some v =>
      if v.currentLevel ≠ "" then
        if v.currentLevel = "low" then score + 10
        else if v.currentLevel = "medium" then score + 5
        else score
      else score - 10
    | none => score - 10
  let score : ℚ :=
    match calculations.supportResistance with
    | some sr =>
      if 2 ≤ sr.support.length ∨ 2 ≤ sr.resistance.length then score + 10
      else score - 10
    | none => score - 10
  let score : ℚ :=
    if 200 ≤ stockData.length then score + 15
    else if 100 ≤ stockData.length then score + 5
    else if 50 ≤ stockData.length then score
    else if 0 < stockData.length then score - 20
    else 0
  clampLevel score

/-- Recommendation `{action, expectedReturn}` of `getRecommendation`.  The
source also returns a `reasoning` sentence (a display-only string built
with `toFixed(1)` decimal formatting); no claim depends on it and decimal
rendering of binary floats is outside this embedding, so it is omitted. -/
structure Recommendation where
  action : String
  expectedReturn : ℚ
deriving Repr, DecidableEq

/-- Transcription of `getRecommendation(targetPrice, currentPrice,
confidenceScore)`: `priceChange = (target − current) / current × 100` and
the source's `if`/`else if` chain over (delta, confidence), defaulting to
`'HOLD'`.  Division is rational (a zero current price would make the JS
delta non-finite; every comparison with such a delta is false, matching
the `'HOLD'` default the model also produces). -/
def getRecommendation (targetPrice currentPrice confidenceScore : ℚ) :
    Recommendation :=
  let priceChange := (targetPrice - currentPrice) / currentPrice * 100
  let recommendation :=
    if 10 < priceChange ∧ 60 ≤ confidenceScore then "BUY"
    else if 20 < priceChange ∧ 40 ≤ confidenceScore then "STRONG BUY"
    else if priceChange < -10 ∧ 60 ≤ confidenceScore then "SELL"
    else if priceChange < -20 ∧ 40 ≤ confidenceScore then "STRONG SELL"
    else "HOLD"
  ⟨recommendation, priceChange⟩

/-- Real-time quote row used by `analyzeStock` (`getLatestPriceFromDB`
result, or the fallback built from the last close). -/
structure RealTimeQuote where
  price : ℚ
  change : ℚ
  changePercent : ℚ
  volume : ℚ

/-- Analyst-consensus snippet merged into the record verbatim (fetched
from the external overview API; absent when that call fails). -/
structure AnalystData where
  analystTargetPrice : Option ℚ
  analystTargetPriceHigh : Option ℚ
  analystTargetPriceLow : Option ℚ
  analystTargetPriceMedian : Option ℚ
  analystRecommendationKey : Option String
  analystRecommendationMean : Option ℚ
  numberOfAnalystOpinions : Option ℚ

/-- Error taxonomy of the orchestrator: `noDataAvailable` models the
`throw new Error('No data available for analysis')` on an empty series. -/
inductive AnalysisError where
  | noDataAvailable
deriving Repr, DecidableEq

/-- AnalysisRecord assembled by `analyzeStock` (persistence of the record
is a database side effect outside the engine and is not modelled). -/
structure AnalysisRecord where
  symbol : String
  analysisDate : String
  currentPrice : ℚ
  priceChange : ℚ
  priceChangePercent : ℚ
  volume : ℚ
  targetPrice : ℚ
  confidenceScore : ℚ
  analysisMethod : String
  priceRangeLow : ℝ
  priceRangeHigh : ℝ
  technicalIndicators : Option IndicatorSet
  calculations : Calculations
  recommendation : Recommendation
  analystData : Option AnalystData

/-- Transcription of `analyzeStock(symbol, database)`: the cached series
is used, falling back to the refreshed series when the cache is empty
(`dbData`/`refreshedData` stand for the two `getStockDataFromDB` reads
around the external refresh); a still-empty series throws the
no-data-available error before any record is built.  Otherwise the
real-time quote (or its last-close fallback), the gated calculation
bundle, target price, confidence, recommendation and the pass-through
analyst fields are assembled into the record.  `lib` is the external
indicator library oracle and `today` the wall-clock analysis date. -/
noncomputable def analyzeStock (symbol : String)
    (dbData refreshedData : List PriceBar) (realTime : Option RealTimeQuote)
    (lib : TILib) (analyst : Option AnalystData) (today : String) :
    Except AnalysisError AnalysisRecord :=
  let stockData := if dbData.length = 0 then refreshedData else dbData
  if stockData.length = 0 then .error .noDataAvailable
  else
    let realTimePrice := realTime.getD
      ⟨(stockData.getLastD ⟨"", 0, 0, 0, 0, 0⟩).close, 0, 0, 0⟩
    let calculations : Calculations :=
      { technical :=
          if 50 ≤ stockData.length then calculateTechnicalIndicators lib stockData
          else none
        fibonacci :=
          if 50 ≤ stockData.length then some (calculateFibonacciLevels stockData)
          else none
        supportResistance :=
          if 50 ≤ stockData.length then some (findSupportResistanceLevels stockData)
          else some ⟨[], []⟩
        trends :=
          if 200 ≤ stockData.length then some (analyzeTrends stockData)
          else some ⟨"neutral", none⟩
        volatility :=
          if 20 ≤ stockData.length then some (calculateVolatility stockData 20)
          else some ⟨0, 0, "low"⟩ }
    let targetPrice := calculateTargetPrice calculations stockData
    let confidence := calculateConfidenceScore calculations stockData
    .ok
      { symbol := symbol
        analysisDate := today
        currentPrice := realTimePrice.price
        priceChange := realTimePrice.change
        priceChangePercent := realTimePrice.changePercent
        volume := realTimePrice.volume
        targetPrice := targetPrice.price
        confidenceScore := confidence.score
        analysisMethod := targetPrice.method
        priceRangeLow := targetPrice.rangeLow
        priceRangeHigh := targetPrice.rangeHigh
        technicalIndicators := calculations.technical
        calculations := calculations
        recommendation :=
          getRecommendation targetPrice.price realTimePrice.price confidence.score
        analystData := analyst }

/-- Formalization of claim C3's level heuristic exactly as the claim words
it (used to refute it): a point is a candidate when it is not more than 2%
below its immediate neighbours; its touch count is the number of points
elsewhere in the series within strict 2% relative tolerance of its price;
exactly the candidates with touch count ≥ 2 are kept, sorted by touch
count descending, top 5 retained. -/
def findLevelsClaimOriginal (data : List ℚ) : List SRLevel :=
  if data.length < 5 then []
  else
    let candidates := (List.range' 2 (data.length - 4)).filterMap (fun i =>
      let current := data.getD i 0
      if data.getD (i - 1) 0 * (1 - 0.02) ≤ current ∧
          data.getD (i + 1) 0 * (1 - 0.02) ≤ current then
        let touches := ((List.range data.length).filter
          (fun j => j ≠ i ∧ |data.getD j 0 - current| < current * 0.02)).length
        if 2 ≤ touches then some ⟨current, touches, i⟩ else none
      else none)
    (sortByTouchesDesc candidates).take 5

/-- Formalization of claim C3's level heuristic as amended to match the
source: a point at index `i` (first and last two indices excluded) is a
candidate exactly when it does not exceed either immediate neighbour by
more than 2%; its touch count is one more than the number of other points
strictly within 2% relative tolerance of its price (the point itself
counts); candidates whose touch count reaches `minTouches` are kept,
stably sorted by touch count descending, top 5 retained. -/
def findLevelsAmended (data : List ℚ) (minTouches : ℕ) : List SRLevel :=
  if data.length < 5 then []
  else
    let candidates := (List.range' 2 (data.length - 4)).filterMap (fun i =>
      let current := data.getD i 0
      if current ≤ data.getD (i - 1) 0 * (1 + 0.02) ∧
          current ≤ data.getD (i + 1) 0 * (1 + 0.02) then
        let touches := 1 + ((List.range data.length).filter
          (fun j => j ≠ i ∧ |data.getD j 0 - current| < current * 0.02)).length
        if minTouches ≤ touches then some ⟨current, touches, i⟩ else none
      else none)
    (sortByTouchesDesc candidates).take 5

/-- Concrete series whose low column is `[50,50,50,100,50,50,50]`,
exhibiting the divergence between `findLevels` and the claimed
characterization of the support levels. -/
def c3Bars : List PriceBar :=
  [⟨"d1", 0, 0, 50, 0, 0⟩, ⟨"d2", 0, 0, 50, 0, 0⟩, ⟨"d3", 0, 0, 50, 0, 0⟩,
    ⟨"d4", 0, 0, 100, 0, 0⟩, ⟨"d5", 0, 0, 50, 0, 0⟩, ⟨"d6", 0, 0, 50, 0, 0⟩,
    ⟨"d7", 0, 0, 50, 0, 0⟩]

/-- Concrete flat series (low column constant 100) exhibiting the
off-by-one between the reported touch count and the claimed one. -/
def c3FlatBars : List PriceBar :=
  [⟨"d1", 0, 0, 100, 0, 0⟩, ⟨"d2", 0, 0, 100, 0, 0⟩, ⟨"d3", 0, 0, 100, 0, 0⟩,
    ⟨"d4", 0, 0, 100, 0, 0⟩, ⟨"d5", 0, 0, 100, 0, 0⟩]

/-- Concrete two-bar series (closes 100 and 200) used as a witness input
for the Fibonacci level claim. -/
def fibWitnessBars : List PriceBar :=
  [⟨"d1", 0, 0, 0, 100, 0⟩, ⟨"d2", 0, 0, 0, 200, 0⟩]

/-- Concrete two-bar series (closes 100 and 100) used as a witness input
for the volatility claim. -/
def volWitnessBars : List PriceBar :=
  [⟨"d1", 0, 0, 0, 100, 0⟩, ⟨"d2", 0, 0, 0, 100, 0⟩]

/-- Concrete calculation bundle whose only available stage result is a
one-entry Bollinger sequence, used as a witness input for the weighted
target price claim. -/
def c10WitnessCalcs : Calculations :=
  { technical := some
      { sma20 := none, sma50 := none, sma200 := none, ema12 := none
        ema26 := none, rsi := none, macd := none
        bollinger := some [⟨110, 100, 90, 1/2⟩], adx := none }
    fibonacci := none
    supportResistance := none
    trends := none
    volatility := none }

/-- Clamped score of `clampLevel` is at least 0. -/
lemma clampLevel_score_nonneg (x : ℚ) : 0 ≤ (clampLevel x).score := by
  simp [clampLevel, le_min_iff, le_max_iff]

/-- Clamped score of `clampLevel` is at most 100. -/
lemma clampLevel_score_le (x : ℚ) : (clampLevel x).score ≤ 100 := by
  simp [clampLevel]

/-- Level of `clampLevel` is `"high"` exactly when the clamped score is at
least 80. -/
lemma clampLevel_high_iff (x : ℚ) :
    (clampLevel x).level = "high" ↔ 80 ≤ (clampLevel x).score := by
  simp only [clampLevel]
  split_ifs with h1 h2 <;>
    simp_all [le_min_iff, le_max_iff] <;> norm_num <;> linarith

/-- Level of `clampLevel` is `"medium"` exactly when the clamped score is
in `[60, 80)`. -/
lemma clampLevel_medium_iff (x : ℚ) :
    (clampLevel x).level = "medium" ↔
      60 ≤ (clampLevel x).score ∧ (clampLevel x).score < 80 := by
  simp only [clampLevel]
  split_ifs with h1 h2 <;>
    simp_all [le_min_iff, le_max_iff, min_lt_iff, max_lt_iff, lt_max_iff] <;>
    norm_num <;> linarith

/-- Level of `clampLevel` is `"low"` exactly when the clamped score is
below 60. -/
lemma clampLevel_low_iff (x : ℚ) :
    (clampLevel x).level = "low" ↔ (clampLevel x).score < 60 := by
  simp only [clampLevel]
  split_ifs with h1 h2 <;>
    simp_all [le_min_iff, le_max_iff, min_lt_iff, max_lt_iff, lt_max_iff] <;>
    norm_num <;> linarith

/-- Left fold of `max` dominates its seed. -/
lemma le_foldl_max_self (l : List ℚ) (a : ℚ) : a ≤ l.foldl max a := by
  induction l generalizing a with
  | nil => simp
  | cons b bs ih => exact le_trans (le_max_left a b) (ih (max a b))

/-- Left fold of `max` dominates every member of the list. -/
lemma le_foldl_max_of_mem {l : List ℚ} {x : ℚ} (a : ℚ) (hx : x ∈ l) :
    x ≤ l.foldl max a := by
  induction l generalizing a with
  | nil => cases hx
  | cons b bs ih =>
    simp only [List.foldl_cons]
    rcases List.mem_cons.mp hx with rfl | h
    · exact le_trans (le_max_right a x) (le_foldl_max_self bs (max a x))
    · exact ih (max a b) h

/-- Left fold of `max` is the seed or a member of the list. -/
lemma foldl_max_eq_or_mem (l : List ℚ) (a : ℚ) :
    l.foldl max a = a ∨ l.foldl max a ∈ l := by
  induction l generalizing a with
  | nil => exact Or.inl rfl
  | cons b bs ih =>
    rcases ih (max a b) with h | h
    · rcases max_choice a b with hc | hc
      · exact Or.inl (by simp [List.foldl_cons] at h ⊢; rw [h, hc])
      · refine Or.inr (List.mem_cons.mpr (Or.inl ?_))
        simp only [List.foldl_cons] at h ⊢
        rw [h, hc]
    · exact Or.inr (List.mem_cons.mpr (Or.inr h))

/-- Left fold of `min` is below its seed. -/
lemma foldl_min_le_self (l : List ℚ) (a : ℚ) : l.foldl min a ≤ a := by
  induction l generalizing a with
  | nil => simp
  | cons b bs ih => exact le_trans (ih (min a b)) (min_le_left a b)

/-- Left fold of `min` is below every member of the list. -/
lemma foldl_min_le_of_mem {l : List ℚ} {x : ℚ} (a : ℚ) (hx : x ∈ l) :
    l.foldl min a ≤ x := by
  induction l generalizing a with
  | nil => cases hx
  | cons b bs ih =>
    simp only [List.foldl_cons]
    rcases List.mem_cons.mp hx with rfl | h
    · exact le_trans (foldl_min_le_self bs (min a x)) (min_le_right a x)
    · exact ih (min a b) h

/-- Left fold of `min` is the seed or a member of the list. -/
lemma foldl_min_eq_or_mem (l : List ℚ) (a : ℚ) :
    l.foldl min a = a ∨ l.foldl min a ∈ l := by
  induction l generalizing a with
  | nil => exact Or.inl rfl
  | cons b bs ih =>
    rcases ih (min a b) with h | h
    · rcases min_choice a b with hc | hc
      · exact Or.inl (by simp only [List.foldl_cons] at h ⊢; rw [h, hc])
      · refine Or.inr (List.mem_cons.mpr (Or.inl ?_))
        simp only [List.foldl_cons] at h ⊢
        rw [h, hc]
    · exact Or.inr (List.mem_cons.mpr (Or.inr h))

/-- C7: for every invocation of the analysis orchestrator on an empty
price series (both the cached read and the post-refresh read return 0
bars), `analyzeStock` fails with the `noDataAvailable` error — it returns
`Except.error`, so no `AnalysisRecord` is produced on this path,
regardless of the quote snapshot, indicator library, analyst data, or
date. -/
theorem c7_empty_series_fails (symbol : String) (realTime : Option RealTimeQuote)
    (lib : TILib) (analyst : Option AnalystData) (today : String) :
    analyzeStock symbol [] [] realTime lib analyst today =
      .error .noDataAvailable := rfl

/-- C1: the recommendation engine evaluates its branches in the source
order — `delta > 10 ∧ confidence ≥ 60` gives `BUY`; only otherwise
`delta > 20 ∧ confidence ≥ 40` gives `STRONG BUY`; then
`delta < −10 ∧ confidence ≥ 60` gives `SELL`; then
`delta < −20 ∧ confidence ≥ 40` gives `STRONG SELL`; otherwise `HOLD`.
In particular every input with `delta > 20` and `confidence ≥ 60` yields
`BUY`, never `STRONG BUY`, and `expectedReturn` always equals the delta
`(target − current) / current × 100`. -/
theorem c1_recommendation_precedence (targetPrice currentPrice confidenceScore : ℚ) :
    ((10 < (targetPrice - currentPrice) / currentPrice * 100 ∧ 60 ≤ confidenceScore) →
      (getRecommendation targetPrice currentPrice confidenceScore).action = "BUY") ∧
    ((¬(10 < (targetPrice - currentPrice) / currentPrice * 100 ∧ 60 ≤ confidenceScore) ∧
      20 < (targetPrice - currentPrice) / currentPrice * 100 ∧ 40 ≤ confidenceScore) →
      (getRecommendation targetPrice currentPrice confidenceScore).action = "STRONG BUY") ∧
    ((¬(10 < (targetPrice - currentPrice) / currentPrice * 100 ∧ 60 ≤ confidenceScore) ∧
      ¬(20 < (targetPrice - currentPrice) / currentPrice * 100 ∧ 40 ≤ confidenceScore) ∧
      (targetPrice - currentPrice) / currentPrice * 100 < -10 ∧ 60 ≤ confidenceScore) →
      (getRecommendation targetPrice currentPrice confidenceScore).action = "SELL") ∧
    ((¬(10 < (targetPrice - currentPrice) / currentPrice * 100 ∧ 60 ≤ confidenceScore) ∧
      ¬(20 < (targetPrice - currentPrice) / currentPrice * 100 ∧ 40 ≤ confidenceScore) ∧
      ¬((targetPrice - currentPrice) / currentPrice * 100 < -10 ∧ 60 ≤ confidenceScore) ∧
      (targetPrice - currentPrice) / currentPrice * 100 < -20 ∧ 40 ≤ confidenceScore) →
      (getRecommendation targetPrice currentPrice confidenceScore).action = "STRONG SELL") ∧
    ((¬(10 < (targetPrice - currentPrice) / currentPrice * 100 ∧ 60 ≤ confidenceScore) ∧
      ¬(20 < (targetPrice - currentPrice) / currentPrice * 100 ∧ 40 ≤ confidenceScore) ∧
      ¬((targetPrice - currentPrice) / currentPrice * 100 < -10 ∧ 60 ≤ confidenceScore) ∧
      ¬((targetPrice - currentPrice) / currentPrice * 100 < -20 ∧ 40 ≤ confidenceScore)) →
      (getRecommendation targetPrice currentPrice confidenceScore).action = "HOLD") ∧
    ((20 < (targetPrice - currentPrice) / currentPrice * 100 ∧ 60 ≤ confidenceScore) →
      (getRecommendation targetPrice currentPrice confidenceScore).action = "BUY") ∧
    (getRecommendation targetPrice currentPrice confidenceScore).expectedReturn =
      (targetPrice - currentPrice) / currentPrice * 100 := by
  refine ⟨?_, ?_, ?_, ?_, ?_, ?_, rfl⟩
  · intro h
    show (if _ ∧ _ then "BUY" else _) = "BUY"
    rw [if_pos h]
  · rintro ⟨hn1, h2⟩
    show (if _ then _ else if _ then "STRONG BUY" else _) = "STRONG BUY"
    rw [if_neg hn1, if_pos h2]
  · rintro ⟨hn1, hn2, h3⟩
    show (if _ then _ else if _ then _ else if _ then "SELL" else _) = "SELL"
    rw [if_neg hn1, if_neg hn2, if_pos h3]
  · rintro ⟨hn1, hn2, hn3, h4⟩
    show (if _ then _ else if _ then _ else if _ then _ else
      if _ then "STRONG SELL" else _) = "STRONG SELL"
    rw [if_neg hn1, if_neg hn2, if_neg hn3, if_pos h4]
  · rintro ⟨hn1, hn2, hn3, hn4⟩
    show (if _ then _ else if _ then _ else if _ then _ else
      if _ then _ else "HOLD") = "HOLD"
    rw [if_neg hn1, if_neg hn2, if_neg hn3, if_neg hn4]
  · rintro ⟨h20, h60⟩
    show (if _ ∧ _ then "BUY" else _) = "BUY"
    exact if_pos ⟨by linarith, h60⟩

/-- C1 witness: at target 125, current 100, confidence 70 the delta is
25 > 20 with confidence ≥ 60, and the action is `BUY` (not `STRONG BUY`),
with `expectedReturn` equal to the delta. -/
theorem c1_recommendation_precedence_witness :
    (getRecommendation 125 100 70).action = "BUY" ∧
    (getRecommendation 125 100 70).expectedReturn = 25 := by
  have h := c1_recommendation_precedence 125 100 70
  refine ⟨h.2.2.2.2.2.1 ⟨by norm_num, by norm_num⟩, ?_⟩
  rw [h.2.2.2.2.2.2]; norm_num

/-- C8 counterexample: at target 130, current 100, confidence 50 the
engine returns the action string `"STRONG BUY"` (with a space), which is
not a member of the data model's action set with underscore-separated
names — so the claim that every action is spelled exactly as in the data
model (`STRONG_BUY`, …) is false. -/
theorem c8_counterexample :
    (getRecommendation 130 100 50).action = "STRONG BUY" ∧
    (getRecommendation 130 100 50).action ∉
      (["STRONG_BUY", "BUY", "HOLD", "SELL", "STRONG_SELL"] : List String) := by
  have ha : (getRecommendation 130 100 50).action = "STRONG BUY" := by
    simp only [getRecommendation]
    norm_num
  exact ⟨ha, by rw [ha]; decide⟩

/-- C8 as amended: for every target price, current price, and confidence
score, the action of the returned recommendation is one of the five
values `"STRONG BUY"`, `"BUY"`, `"HOLD"`, `"SELL"`, `"STRONG SELL"` — the
same five-element action set, but the two-word labels are spelled with a
space, not an underscore. -/
theorem c8_action_set (targetPrice currentPrice confidenceScore : ℚ) :
    (getRecommendation targetPrice currentPrice confidenceScore).action ∈
      (["STRONG BUY", "BUY", "HOLD", "SELL", "STRONG SELL"] : List String) := by
  simp only [getRecommendation]
  split_ifs <;> simp

/-- C2 evidence (code bug): on the 15-bar series with constant high 10,
low 5, close 7, every directional movement is 0 while the average true
range is 5 > 0, so `+DI` and `−DI` are both 0 at the single DX bar — the
divisor `+DI + −DI` is 0 — and the source's unguarded division produces
`NaN` (`none`), not the sentinel 0 required by the specification.  On the
28-bar version the ADX output itself contains the non-finite value. -/
theorem c2_adx_division_by_zero_nan :
    adxPlusDI (List.replicate 15 10) (List.replicate 15 5)
        (List.replicate 15 7) 14 = [some 0] ∧
    adxMinusDI (List.replicate 15 10) (List.replicate 15 5)
        (List.replicate 15 7) 14 = [some 0] ∧
    adxDX (List.replicate 15 10) (List.replicate 15 5)
        (List.replicate 15 7) 14 = [none] ∧
    calculateADX (List.replicate 28 10) (List.replicate 28 5)
        (List.replicate 28 7) 14 = [none] := by
  refine ⟨?_, ?_, ?_, ?_⟩ <;>
    norm_num [calculateADX, smaOption, oSum, adxDX, adxPlusDI, adxMinusDI,
      plusDMList, minusDMList, trueRangeList, calculateSMA, jsDiv,
      List.replicate]

/-- C9: in the target price synthesizer, a volatility input whose
annualized volatility is exactly 0 is falsy in JavaScript, so the price
range falls back to ±10% of the target (or of the current price in the
zero-candidate case) — the very same result as when volatility is absent;
the range is therefore never ±0 even though the volatility is defined and
zero. -/
theorem c9_zero_volatility_fallback (calcs : Calculations)
    (stockData : List PriceBar) (sd : ℝ) (lvl : String) :
    calculateTargetPrice { calcs with volatility := some ⟨sd, 0, lvl⟩ } stockData =
      calculateTargetPrice { calcs with volatility := none } stockData ∧
    (calculateTargetPrice { calcs with volatility := some ⟨sd, 0, lvl⟩ } stockData).rangeLow =
      ((calculateTargetPrice { calcs with volatility := some ⟨sd, 0, lvl⟩ } stockData).price : ℝ) -
        ((calculateTargetPrice { calcs with volatility := some ⟨sd, 0, lvl⟩ } stockData).price : ℝ) * 0.1 ∧
    (calculateTargetPrice { calcs with volatility := some ⟨sd, 0, lvl⟩ } stockData).rangeHigh =
      ((calculateTargetPrice { calcs with volatility := some ⟨sd, 0, lvl⟩ } stockData).price : ℝ) +
        ((calculateTargetPrice { calcs with volatility := some ⟨sd, 0, lvl⟩ } stockData).price : ℝ) * 0.1 := by
  have hadj : ∀ base : ℚ,
      rangeAdjustmentOf (some ⟨sd, 0, lvl⟩) base = (base : ℝ) * 0.1 := by
    intro base; simp [rangeAdjustmentOf]
  have hadj' : ∀ base : ℚ,
      rangeAdjustmentOf (none : Option VolatilityState) base = (base : ℝ) * 0.1 := by
    intro base; simp [rangeAdjustmentOf]
  have hpt : priceTargetsOf { calcs with volatility := some ⟨sd, 0, lvl⟩ } =
      priceTargetsOf calcs := rfl
  have hpt' : priceTargetsOf { calcs with volatility := none } =
      priceTargetsOf calcs := rfl
  refine ⟨?_, ?_, ?_⟩ <;>
    · simp only [calculateTargetPrice, hpt, hpt']
      split_ifs with h <;> simp [hadj, hadj']

/-- C4: for every calculation bundle and every sample, the returned
confidence score lies in `[0, 100]`; an empty series forces the score to
exactly 0 whatever the other adjustments; and the level is `"high"` iff
the score is at least 80, `"medium"` iff it is in `[60, 80)`, and `"low"`
otherwise. -/
theorem c4_confidence_bounds (calcs : Calculations) (stockData : List PriceBar) :
    (0 ≤ (calculateConfidenceScore calcs stockData).score ∧
      (calculateConfidenceScore calcs stockData).score ≤ 100) ∧
    (calculateConfidenceScore calcs []).score = 0 ∧
    ((calculateConfidenceScore calcs stockData).level = "high" ↔
      80 ≤ (calculateConfidenceScore calcs stockData).score) ∧
    ((calculateConfidenceScore calcs stockData).level = "medium" ↔
      60 ≤ (calculateConfidenceScore calcs stockData).score ∧
        (calculateConfidenceScore calcs stockData).score < 80) ∧
    ((calculateConfidenceScore calcs stockData).level = "low" ↔
      (calculateConfidenceScore calcs stockData).score < 60) := by
  obtain ⟨x, hx⟩ : ∃ x, calculateConfidenceScore calcs stockData = clampLevel x :=
    ⟨_, rfl⟩
  have hempty : calculateConfidenceScore calcs [] = clampLevel 0 := by
    norm_num [calculateConfidenceScore]
  rw [hx, hempty]
  refine ⟨⟨clampLevel_score_nonneg x, clampLevel_score_le x⟩, ?_,
    clampLevel_high_iff x, clampLevel_medium_iff x, clampLevel_low_iff x⟩
  norm_num [clampLevel]

/-- C5: for at least 2 bars, the Fibonacci structure takes `high`/`low`
as the maximum/minimum close of the window, maps the 0% level to the high
and the 100% level to the low, realizes every ratio `r` of
`{0, 0.236, 0.382, 0.5, 0.618, 1}` as `high − r × (high − low)`, and the
six levels decrease strictly from 0% to 100% whenever `high > low`; fewer
than 2 bars yields the all-zero structure, not an error. -/
theorem c5_fibonacci_levels (stockData : List PriceBar) :
    (stockData.length < 2 → calculateFibonacciLevels stockData = zeroFibonacciLevels) ∧
    (2 ≤ stockData.length →
      (calculateFibonacciLevels stockData).levels.p0 =
        (calculateFibonacciLevels stockData).high ∧
      (calculateFibonacciLevels stockData).levels.p100 =
        (calculateFibonacciLevels stockData).low ∧
      ((calculateFibonacciLevels stockData).low <
          (calculateFibonacciLevels stockData).high →
        (calculateFibonacciLevels stockData).levels.p100 <
          (calculateFibonacciLevels stockData).levels.p618 ∧
        (calculateFibonacciLevels stockData).levels.p618 <
          (calculateFibonacciLevels stockData).levels.p50 ∧
        (calculateFibonacciLevels stockData).levels.p50 <
          (calculateFibonacciLevels stockData).levels.p382 ∧
        (calculateFibonacciLevels stockData).levels.p382 <
          (calculateFibonacciLevels stockData).levels.p236 ∧
        (calculateFibonacciLevels stockData).levels.p236 <
          (calculateFibonacciLevels stockData).levels.p0) ∧
      (calculateFibonacciLevels stockData).high ∈ stockData.map (fun d => d.close) ∧
      (∀ c ∈ stockData.map (fun d => d.close),
        c ≤ (calculateFibonacciLevels stockData).high) ∧
      (calculateFibonacciLevels stockData).low ∈ stockData.map (fun d => d.close) ∧
      (∀ c ∈ stockData.map (fun d => d.close),
        (calculateFibonacciLevels stockData).low ≤ c) ∧
      (calculateFibonacciLevels stockData).levels.p0 =
        (calculateFibonacciLevels stockData).high -
          0 * ((calculateFibonacciLevels stockData).high -
            (calculateFibonacciLevels stockData).low) ∧
      (calculateFibonacciLevels stockData).levels.p236 =
        (calculateFibonacciLevels stockData).high -
          0.236 * ((calculateFibonacciLevels stockData).high -
            (calculateFibonacciLevels stockData).low) ∧
      (calculateFibonacciLevels stockData).levels.p382 =
        (calculateFibonacciLevels stockData).high -
          0.382 * ((calculateFibonacciLevels stockData).high -
            (calculateFibonacciLevels stockData).low) ∧
      (calculateFibonacciLevels stockData).levels.p50 =
        (calculateFibonacciLevels stockData).high -
          0.5 * ((calculateFibonacciLevels stockData).high -
            (calculateFibonacciLevels stockData).low) ∧
      (calculateFibonacciLevels stockData).levels.p618 =
        (calculateFibonacciLevels stockData).high -
          0.618 * ((calculateFibonacciLevels stockData).high -
            (calculateFibonacciLevels stockData).low) ∧
      (calculateFibonacciLevels stockData).levels.p100 =
        (calculateFibonacciLevels stockData).high -
          1 * ((calculateFibonacciLevels stockData).high -
            (calculateFibonacciLevels stockData).low)) := by
  constructor
  · intro h
    simp [calculateFibonacciLevels, if_pos h]
  · intro h2
    have hne : stockData.map (fun d => d.close) ≠ [] := by
      cases stockData with
      | nil => simp at h2
      | cons a l => simp
    have hlt : ¬ stockData.length < 2 := not_lt.mpr h2
    have hfib : calculateFibonacciLevels stockData =
        ⟨(stockData.map (fun d => d.close)).foldl max
            ((stockData.map (fun d => d.close)).headD 0),
          (stockData.map (fun d => d.close)).foldl min
            ((stockData.map (fun d => d.close)).headD 0),
          ⟨(stockData.map (fun d => d.close)).foldl max
              ((stockData.map (fun d => d.close)).headD 0),
            (stockData.map (fun d => d.close)).foldl max
                ((stockData.map (fun d => d.close)).headD 0) -
              ((stockData.map (fun d => d.close)).foldl max
                  ((stockData.map (fun d => d.close)).headD 0) -
                (stockData.map (fun d => d.close)).foldl min
                  ((stockData.map (fun d => d.close)).headD 0)) * 0.236,
            (stockData.map (fun d => d.close)).foldl max
                ((stockData.map (fun d => d.close)).headD 0) -
              ((stockData.map (fun d => d.close)).foldl max
                  ((stockData.map (fun d => d.close)).headD 0) -
                (stockData.map (fun d => d.close)).foldl min
                  ((stockData.map (fun d => d.close)).headD 0)) * 0.382,
            (stockData.map (fun d => d.close)).foldl max
                ((stockData.map (fun d => d.close)).headD 0) -
              ((stockData.map (fun d => d.close)).foldl max
                  ((stockData.map (fun d => d.close)).headD 0) -
                (stockData.map (fun d => d.close)).foldl min
                  ((stockData.map (fun d => d.close)).headD 0)) * 0.5,
            (stockData.map (fun d => d.close)).foldl max
                ((stockData.map (fun d => d.close)).headD 0) -
              ((stockData.map (fun d => d.close)).foldl max
                  ((stockData.map (fun d => d.close)).headD 0) -
                (stockData.map (fun d => d.close)).foldl min
                  ((stockData.map (fun d => d.close)).headD 0)) * 0.618,
            (stockData.map (fun d => d.close)).foldl min
              ((stockData.map (fun d => d.close)).headD 0)⟩⟩ := by
      rw [calculateFibonacciLevels.eq_def, if_neg hlt]
    have hhead : (stockData.map (fun d => d.close)).headD 0 ∈
        stockData.map (fun d => d.close) := by
      cases hl : stockData.map (fun d => d.close) with
      | nil => exact absurd hl hne
      | cons a l => simp
    have hmaxmem : (stockData.map (fun d => d.close)).foldl max
        ((stockData.map (fun d => d.close)).headD 0) ∈
        stockData.map (fun d => d.close) := by
      rcases foldl_max_eq_or_mem (stockData.map (fun d => d.close))
          ((stockData.map (fun d => d.close)).headD 0) with h | h
      · rw [h]; exact hhead
      · exact h
    have hminmem : (stockData.map (fun d => d.close)).foldl min
        ((stockData.map (fun d => d.close)).headD 0) ∈
        stockData.map (fun d => d.close) := by
      rcases foldl_min_eq_or_mem (stockData.map (fun d => d.close))
          ((stockData.map (fun d => d.close)).headD 0) with h | h
      · rw [h]; exact hhead
      · exact h
    rw [hfib]
    refine ⟨rfl, rfl, ?_, hmaxmem,
      fun c hc => le_foldl_max_of_mem _ hc, hminmem,
      fun c hc => foldl_min_le_of_mem _ hc,
      by ring, by ring, by ring, by ring, by ring, by ring⟩
    intro hlh
    dsimp only at hlh ⊢
    refine ⟨by linarith, by linarith, by linarith, by linarith, by linarith⟩

/-- C5 witness: the empty series yields the all-zero structure, and on the
two-bar series with closes 100 and 200 the 0% level equals the high and
the 23.6% level lies strictly below it. -/
theorem c5_fibonacci_levels_witness :
    calculateFibonacciLevels [] = zeroFibonacciLevels ∧
    (calculateFibonacciLevels fibWitnessBars).levels.p0 =
      (calculateFibonacciLevels fibWitnessBars).high ∧
    (calculateFibonacciLevels fibWitnessBars).levels.p236 <
      (calculateFibonacciLevels fibWitnessBars).levels.p0 := by
  refine ⟨(c5_fibonacci_levels []).1 (by norm_num), ?_, ?_⟩
  · exact ((c5_fibonacci_levels fibWitnessBars).2 (by norm_num [fibWitnessBars])).1
  · refine (((c5_fibonacci_levels fibWitnessBars).2
      (by norm_num [fibWitnessBars])).2.2.1 ?_).2.2.2.2
    norm_num [calculateFibonacciLevels, fibWitnessBars]

/-- Tier of `volTier` is `"high"` exactly above 0.25. -/
lemma volTier_high_iff (v : ℝ) : volTier v = "high" ↔ 0.25 < v := by
  unfold volTier
  split_ifs with h1 h2 <;> simp_all <;> linarith

/-- Tier of `volTier` is `"medium"` exactly on `(0.15, 0.25]`. -/
lemma volTier_medium_iff (v : ℝ) : volTier v = "medium" ↔ 0.15 < v ∧ v ≤ 0.25 := by
  unfold volTier
  split_ifs with h1 h2 <;> simp_all <;> linarith

/-- Tier of `volTier` is `"low"` exactly at or below 0.15. -/
lemma volTier_low_iff (v : ℝ) : volTier v = "low" ↔ v ≤ 0.15 := by
  unfold volTier
  split_ifs with h1 h2 <;> simp_all <;> linarith

/-- C6: for at least 2 bars, the volatility classifier takes the most
recent `min(20, length)` closes, the log returns between consecutive
closes, the standard deviation of that return sample (sum of squared
deviations from the mean divided by the number of returns, as the source
computes it), annualizes by `√252`, and tiers the result as `"high"`
above 0.25, `"medium"` above 0.15, else `"low"`; fewer than 2 bars yields
standard deviation 0, annualized volatility 0, and level `"low"`. -/
theorem c6_volatility_classifier (stockData : List PriceBar) :
    (stockData.length < 2 → calculateVolatility stockData 20 = ⟨0, 0, "low"⟩) ∧
    (2 ≤ stockData.length →
      let closes := (stockData.drop (stockData.length - min 20 stockData.length)).map
        (fun d => (d.close : ℝ))
      let returns := List.zipWith (fun prev cur => Real.log (cur / prev)) closes closes.tail
      let mean := returns.sum / (returns.length : ℝ)
      let variance := (returns.map (fun b => (b - mean) ^ 2)).sum / (returns.length : ℝ)
      (calculateVolatility stockData 20).standardDeviation = Real.sqrt variance ∧
      (calculateVolatility stockData 20).annualizedVolatility =
        Real.sqrt variance * Real.sqrt 252) ∧
    ((calculateVolatility stockData 20).currentLevel = "high" ↔
      0.25 < (calculateVolatility stockData 20).annualizedVolatility) ∧
    ((calculateVolatility stockData 20).currentLevel = "medium" ↔
      0.15 < (calculateVolatility stockData 20).annualizedVolatility ∧
        (calculateVolatility stockData 20).annualizedVolatility ≤ 0.25) ∧
    ((calculateVolatility stockData 20).currentLevel = "low" ↔
      (calculateVolatility stockData 20).annualizedVolatility ≤ 0.15) := by
  by_cases hlen : stockData.length < 2
  · have hv : calculateVolatility stockData 20 = ⟨0, 0, "low"⟩ := by
      rw [calculateVolatility.eq_def, if_pos hlen]
    rw [hv]
    refine ⟨fun _ => rfl, fun h2 => absurd h2 (by omega), ?_, ?_, ?_⟩
    · constructor
      · intro h
        exact absurd h (by decide)
      · intro h
        norm_num at h
    · constructor
      · intro h
        exact absurd h (by decide)
      · intro h
        have h1 := h.1
        norm_num at h1
    · constructor
      · intro _
        norm_num
      · intro _
        rfl
  · push_neg at hlen
    have hg2 : ¬ ((stockData.drop (stockData.length - min 20 stockData.length)).map
        (fun d => (d.close : ℝ))).length < 2 := by
      simp only [List.length_map, List.length_drop]
      omega
    refine ⟨fun h => absurd h (by omega), ?_, ?_, ?_, ?_⟩
    · intro _
      simp only [calculateVolatility]
      rw [if_neg (not_lt.mpr hlen), if_neg hg2]
      exact ⟨rfl, rfl⟩
    · simp only [calculateVolatility]
      rw [if_neg (not_lt.mpr hlen), if_neg hg2]
      exact volTier_high_iff _
    · simp only [calculateVolatility]
      rw [if_neg (not_lt.mpr hlen), if_neg hg2]
      exact volTier_medium_iff _
    · simp only [calculateVolatility]
      rw [if_neg (not_lt.mpr hlen), if_neg hg2]
      exact volTier_low_iff _

/-- C6 witness: the empty series yields the zeroed low default, the
two-bar flat series satisfies the standard-deviation and annualization
formulas, and its tier is `"low"` exactly when its annualized volatility
is at most 0.15. -/
theorem c6_volatility_classifier_witness :
    calculateVolatility [] 20 = ⟨0, 0, "low"⟩ ∧
    (let closes := (volWitnessBars.drop (volWitnessBars.length - min 20 volWitnessBars.length)).map
        (fun d => (d.close : ℝ))
     let returns := List.zipWith (fun prev cur => Real.log (cur / prev)) closes closes.tail
     let mean := returns.sum / (returns.length : ℝ)
     let variance := (returns.map (fun b => (b - mean) ^ 2)).sum / (returns.length : ℝ)
     (calculateVolatility volWitnessBars 20).standardDeviation = Real.sqrt variance ∧
     (calculateVolatility volWitnessBars 20).annualizedVolatility =
       Real.sqrt variance * Real.sqrt 252) ∧
    ((calculateVolatility volWitnessBars 20).currentLevel = "low" ↔
      (calculateVolatility volWitnessBars 20).annualizedVolatility ≤ 0.15) :=
  ⟨(c6_volatility_classifier []).1 (by norm_num),
    (c6_volatility_classifier volWitnessBars).2.1 (by norm_num [volWitnessBars]),
    (c6_volatility_classifier volWitnessBars).2.2.2.2⟩

/-- Membership in `insertByTouchesDesc`: the inserted element or one of
the originals. -/
lemma mem_insertByTouchesDesc {x a : SRLevel} {l : List SRLevel} :
    x ∈ insertByTouchesDesc a l ↔ x = a ∨ x ∈ l := by
  induction l with
  | nil => simp [insertByTouchesDesc]
  | cons b bs ih =>
    simp only [insertByTouchesDesc]
    split_ifs with h
    · simp [List.mem_cons]
    · simp only [List.mem_cons, ih]
      tauto

/-- Insertion by `insertByTouchesDesc` preserves the descending-by-touches
pairwise ordering. -/
lemma pairwise_insertByTouchesDesc {a : SRLevel} {l : List SRLevel}
    (h : List.Pairwise (fun x y => y.touches ≤ x.touches) l) :
    List.Pairwise (fun x y => y.touches ≤ x.touches) (insertByTouchesDesc a l) := by
  induction l with
  | nil => simp [insertByTouchesDesc]
  | cons b bs ih =>
    rcases List.pairwise_cons.mp h with ⟨hb, hbs⟩
    simp only [insertByTouchesDesc]
    split_ifs with hlt
    · refine List.pairwise_cons.mpr ⟨?_, h⟩
      intro y hy
      rcases List.mem_cons.mp hy with rfl | hy'
      · omega
      · have := hb y hy'
        omega
    · refine List.pairwise_cons.mpr ⟨?_, ih hbs⟩
      intro y hy
      rcases mem_insertByTouchesDesc.mp hy with rfl | hy'
      · omega
      · exact hb y hy'

/-- Output of `sortByTouchesDesc` is pairwise descending by touches. -/
lemma pairwise_sortByTouchesDesc (l : List SRLevel) :
    List.Pairwise (fun x y => y.touches ≤ x.touches) (sortByTouchesDesc l) := by
  have haux : ∀ (l acc : List SRLevel),
      List.Pairwise (fun x y => y.touches ≤ x.touches) acc →
      List.Pairwise (fun x y => y.touches ≤ x.touches)
        (l.foldl (fun acc x => insertByTouchesDesc x acc) acc) := by
    intro l
    induction l with
    | nil => exact fun acc h => h
    | cons b bs ih =>
      intro acc h
      exact ih _ (pairwise_insertByTouchesDesc h)
  exact haux l [] (by simp)

/-- Pointwise-equal optional maps give equal `filterMap` results. -/
lemma filterMap_congr_mem {α β : Type} {l : List α} {f g : α → Option β}
    (h : ∀ a ∈ l, f a = g a) : l.filterMap f = l.filterMap g := by
  induction l with
  | nil => rfl
  | cons b bs ih =>
    simp only [List.filterMap_cons, h b (List.mem_cons_self b bs)]
    rw [ih (fun a ha => h a (List.mem_cons_of_mem b ha))]

/-- Level detector of the source equals the amended claim-side
characterization: over the interior indices, the redundant range guards
drop away and "does not exceed a neighbour by more than 2%" is exactly
the negation of the source's disqualification tests. -/
lemma findLevels_eq_amended (data : List ℚ) (minTouches : ℕ) :
    findLevels data minTouches = findLevelsAmended data minTouches := by
  simp only [findLevels, findLevelsAmended]
  split_ifs with h
  · rfl
  · congr 1
    congr 1
    apply filterMap_congr_mem
    intro i hi
    rcases List.mem_range'_1.mp hi with ⟨h2i, hiu⟩
    have h0 : 0 < i := by omega
    have h1 : i < data.length - 1 := by omega
    exact if_congr (by simp [h0, h1, not_lt]) rfl rfl

/-- Output of `findLevels` is pairwise descending by touches. -/
lemma pairwise_findLevels (data : List ℚ) (minTouches : ℕ) :
    List.Pairwise (fun x y => y.touches ≤ x.touches) (findLevels data minTouches) := by
  unfold findLevels
  split_ifs with h
  · simp
  · exact (pairwise_sortByTouchesDesc _).sublist (List.take_sublist 5 _)

/-- Output of `findLevels` has at most 5 entries. -/
lemma length_findLevels_le (data : List ℚ) (minTouches : ℕ) :
    (findLevels data minTouches).length ≤ 5 := by
  unfold findLevels
  split_ifs with h
  · simp
  · exact List.length_take_le 5 _

/-- C3 counterexample: on the series whose low column is
`[50,50,50,100,50,50,50]`, the code keeps two support levels of 6 touches
each (indices 2 and 4 are within 2% of their neighbours on the code's
"not above" test, and the counter includes the point itself), while the
claim's characterization — candidate iff not more than 2% below its
neighbours, touch count counting only other points, kept iff that count
reaches 2 — predicts the empty list; on the flat 5-bar series the code
reports 5 touches where the claim predicts 4. -/
theorem c3_counterexample :
    (findSupportResistanceLevels c3Bars).support = [⟨50, 6, 2⟩, ⟨50, 6, 4⟩] ∧
    findLevelsClaimOriginal (c3Bars.map (fun d => d.low)) = [] ∧
    (findSupportResistanceLevels c3FlatBars).support = [⟨100, 5, 2⟩] ∧
    findLevelsClaimOriginal (c3FlatBars.map (fun d => d.low)) = [⟨100, 4, 2⟩] := by
  refine ⟨?_, ?_, ?_, ?_⟩ <;>
    norm_num [findSupportResistanceLevels, findLevels, findLevelsClaimOriginal,
      c3Bars, c3FlatBars, sortByTouchesDesc, insertByTouchesDesc,
      List.range', List.range, List.range.loop, List.filterMap_cons, List.filter]

/-- C3 as amended: for every series, the support list is computed from the
low column and the resistance list from the high column by the shared
heuristic where a point at an interior index is a candidate exactly when
it does not exceed either immediate neighbour by more than 2%, its touch
count is one more than the number of other points strictly within 2%
relative tolerance (the point itself counts), candidates with touch count
at least 2 are kept, stably sorted by touch count descending, with at
most the top 5 retained per side; fewer than 5 bars gives empty lists,
and the returned lists are always descending in touch count with at most
5 entries. -/
theorem c3_level_detection (stockData : List PriceBar) :
    findSupportResistanceLevels stockData =
      (if 5 ≤ stockData.length then
        ⟨findLevelsAmended (stockData.map (fun d => d.low)) 2,
          findLevelsAmended (stockData.map (fun d => d.high)) 2⟩
      else ⟨[], []⟩) ∧
    List.Pairwise (fun x y => y.touches ≤ x.touches)
      (findSupportResistanceLevels stockData).support ∧
    List.Pairwise (fun x y => y.touches ≤ x.touches)
      (findSupportResistanceLevels stockData).resistance ∧
    (findSupportResistanceLevels stockData).support.length ≤ 5 ∧
    (findSupportResistanceLevels stockData).resistance.length ≤ 5 := by
  refine ⟨?_, ?_, ?_, ?_, ?_⟩
  · unfold findSupportResistanceLevels
    split_ifs with h1 h2 <;>
      first
        | rfl
        | omega
        | rw [findLevels_eq_amended, findLevels_eq_amended]
  · unfold findSupportResistanceLevels
    split_ifs with h1
    · simp
    · exact pairwise_findLevels _ _
  · unfold findSupportResistanceLevels
    split_ifs with h1
    · simp
    · exact pairwise_findLevels _ _
  · unfold findSupportResistanceLevels
    split_ifs with h1
    · simp
    · exact length_findLevels_le _ _
  · unfold findSupportResistanceLevels
    split_ifs with h1
    · simp
    · exact length_findLevels_le _ _

/-- Every Bollinger candidate carries a positive weight (0.15 or 0.10). -/
lemma bbTargets_weight_pos {c : Calculations} {t : PriceCandidate}
    (h : t ∈ bbTargets c) : 0 < t.weight := by
  obtain ⟨tech, fib, sr, tr, vol⟩ := c
  cases tech with
  | none => simp [bbTargets] at h
  | some ti =>
    obtain ⟨s20, s50, s200, e12, e26, rsi, macd, boll, adx⟩ := ti
    cases boll with
    | none => simp [bbTargets] at h
    | some bbs =>
      simp only [bbTargets] at h
      split_ifs at h <;>
        simp only [List.mem_append, List.mem_singleton, List.not_mem_nil,
          or_false, false_or] at h <;>
        first
          | exact h.elim
          | (rcases h with rfl | rfl <;> norm_num)
          | (subst h
             norm_num)

/-- Every Fibonacci candidate carries the positive weight 0.20. -/
lemma fibTargets_weight_pos {c : Calculations} {t : PriceCandidate}
    (h : t ∈ fibTargets c) : 0 < t.weight := by
  obtain ⟨tech, fib, sr, tr, vol⟩ := c
  cases fib with
  | none => simp [fibTargets] at h
  | some f =>
    cases tr with
    | none => simp [fibTargets] at h
    | some trd =>
      simp only [fibTargets] at h
      split_ifs at h <;> simp_all <;> norm_num

/-- Every resistance candidate carries the positive weight 0.15. -/
lemma resTargets_weight_pos {c : Calculations} {t : PriceCandidate}
    (h : t ∈ resTargets c) : 0 < t.weight := by
  obtain ⟨tech, fib, sr, tr, vol⟩ := c
  cases sr with
  | none => simp [resTargets] at h
  | some s =>
    cases tr with
    | none => simp [resTargets] at h
    | some trd =>
      simp only [resTargets] at h
      split_ifs at h <;> simp_all <;> norm_num

/-- Every support candidate carries the positive weight 0.15. -/
lemma supTargets_weight_pos {c : Calculations} {t : PriceCandidate}
    (h : t ∈ supTargets c) : 0 < t.weight := by
  obtain ⟨tech, fib, sr, tr, vol⟩ := c
  cases sr with
  | none => simp [supTargets] at h
  | some s =>
    cases tr with
    | none => simp [supTargets] at h
    | some trd =>
      simp only [supTargets] at h
      split_ifs at h <;> simp_all <;> norm_num

/-- Every moving-average candidate carries the positive weight 0.15. -/
lemma maTargets_weight_pos {c : Calculations} {t : PriceCandidate}
    (h : t ∈ maTargets c) : 0 < t.weight := by
  obtain ⟨tech, fib, sr, tr, vol⟩ := c
  cases tr with
  | none => simp [maTargets] at h
  | some trd =>
    obtain ⟨trendLabel, ma⟩ := trd
    cases ma with
    | none => simp [maTargets] at h
    | some m =>
      simp only [maTargets] at h
      split_ifs at h <;> simp_all <;> norm_num

/-- Every candidate pushed by `calculateTargetPrice` carries a strictly
positive weight. -/
lemma weight_pos_of_mem_priceTargets {c : Calculations} {t : PriceCandidate}
    (h : t ∈ priceTargetsOf c) : 0 < t.weight := by
  simp only [priceTargetsOf, List.mem_append] at h
  rcases h with ((((h | h) | h) | h) | h)
  exacts [bbTargets_weight_pos h, fibTargets_weight_pos h,
    resTargets_weight_pos h, supTargets_weight_pos h, maTargets_weight_pos h]

/-- Total weight of a non-empty candidate list with positive weights is
positive. -/
lemma sum_weights_pos {l : List PriceCandidate} (hne : l ≠ [])
    (hw : ∀ t ∈ l, 0 < t.weight) : 0 < (l.map (fun t => t.weight)).sum := by
  induction l with
  | nil => exact absurd rfl hne
  | cons b bs ih =>
    simp only [List.map_cons, List.sum_cons]
    rcases eq_or_ne bs [] with rfl | hbs
    · simpa using hw b (by simp)
    · have h1 := ih hbs (fun t ht => hw t (List.mem_cons_of_mem b ht))
      have h2 := hw b (List.mem_cons_self b bs)
      linarith

/-- Weighted sum is bounded above by the upper price bound times the total
weight. -/
lemma weighted_sum_le {l : List PriceCandidate} {hi : ℚ}
    (hw : ∀ t ∈ l, 0 < t.weight) (hp : ∀ t ∈ l, t.price ≤ hi) :
    (l.map (fun t => t.price * t.weight)).sum ≤
      hi * (l.map (fun t => t.weight)).sum := by
  induction l with
  | nil => simp
  | cons b bs ih =>
    simp only [List.map_cons, List.sum_cons, mul_add]
    have h1 : b.price * b.weight ≤ hi * b.weight :=
      mul_le_mul_of_nonneg_right (hp b (List.mem_cons_self b bs))
        (le_of_lt (hw b (List.mem_cons_self b bs)))
    have h2 := ih (fun t ht => hw t (List.mem_cons_of_mem b ht))
      (fun t ht => hp t (List.mem_cons_of_mem b ht))
    linarith

/-- Weighted sum is bounded below by the lower price bound times the total
weight. -/
lemma le_weighted_sum {l : List PriceCandidate} {lo : ℚ}
    (hw : ∀ t ∈ l, 0 < t.weight) (hp : ∀ t ∈ l, lo ≤ t.price) :
    lo * (l.map (fun t => t.weight)).sum ≤
      (l.map (fun t => t.price * t.weight)).sum := by
  induction l with
  | nil => simp
  | cons b bs ih =>
    simp only [List.map_cons, List.sum_cons, mul_add]
    have h1 : lo * b.weight ≤ b.price * b.weight :=
      mul_le_mul_of_nonneg_right (hp b (List.mem_cons_self b bs))
        (le_of_lt (hw b (List.mem_cons_self b bs)))
    have h2 := ih (fun t ht => hw t (List.mem_cons_of_mem b ht))
      (fun t ht => hp t (List.mem_cons_of_mem b ht))
    linarith

/-- C10: whenever the synthesizer produces at least one candidate, the
returned target price lies between the minimum and maximum candidate
prices inclusive, because it is the weighted mean of the candidate prices
with strictly positive weights normalized by their sum. -/
theorem c10_target_within_candidates (calcs : Calculations)
    (stockData : List PriceBar) (h : priceTargetsOf calcs ≠ []) :
    ∃ lo ∈ (priceTargetsOf calcs).map (fun t => t.price),
      ∃ hi ∈ (priceTargetsOf calcs).map (fun t => t.price),
        (∀ p ∈ (priceTargetsOf calcs).map (fun t => t.price), lo ≤ p ∧ p ≤ hi) ∧
        lo ≤ (calculateTargetPrice calcs stockData).price ∧
        (calculateTargetPrice calcs stockData).price ≤ hi := by
  have hprne : (priceTargetsOf calcs).map (fun t => t.price) ≠ [] := by
    intro he
    exact h (List.map_eq_nil.mp he)
  have hhead : ((priceTargetsOf calcs).map (fun t => t.price)).headD 0 ∈
      (priceTargetsOf calcs).map (fun t => t.price) := by
    cases hl : (priceTargetsOf calcs).map (fun t => t.price) with
    | nil => exact absurd hl hprne
    | cons a l => simp
  have hminmem : ((priceTargetsOf calcs).map (fun t => t.price)).foldl min
      (((priceTargetsOf calcs).map (fun t => t.price)).headD 0) ∈
      (priceTargetsOf calcs).map (fun t => t.price) := by
    rcases foldl_min_eq_or_mem ((priceTargetsOf calcs).map (fun t => t.price))
        (((priceTargetsOf calcs).map (fun t => t.price)).headD 0) with he | hm
    · rw [he]; exact hhead
    · exact hm
  have hmaxmem : ((priceTargetsOf calcs).map (fun t => t.price)).foldl max
      (((priceTargetsOf calcs).map (fun t => t.price)).headD 0) ∈
      (priceTargetsOf calcs).map (fun t => t.price) := by
    rcases foldl_max_eq_or_mem ((priceTargetsOf calcs).map (fun t => t.price))
        (((priceTargetsOf calcs).map (fun t => t.price)).headD 0) with he | hm
    · rw [he]; exact hhead
    · exact hm
  have hlen : ¬ (priceTargetsOf calcs).length = 0 := by
    simpa [List.length_eq_zero] using h
  have htw : 0 < ((priceTargetsOf calcs).map (fun t => t.weight)).sum :=
    sum_weights_pos h (fun t ht => weight_pos_of_mem_priceTargets ht)
  have hprice : (calculateTargetPrice calcs stockData).price =
      ((priceTargetsOf calcs).map (fun t => t.price * t.weight)).sum /
        ((priceTargetsOf calcs).map (fun t => t.weight)).sum := by
    simp only [calculateTargetPrice]
    rw [if_neg hlen, if_pos htw]
  refine ⟨_, hminmem, _, hmaxmem,
    fun p hp => ⟨foldl_min_le_of_mem _ hp, le_foldl_max_of_mem _ hp⟩, ?_, ?_⟩
  · rw [hprice, le_div_iff htw]
    refine le_weighted_sum (fun t ht => weight_pos_of_mem_priceTargets ht) ?_
    intro t ht
    exact foldl_min_le_of_mem _ (List.mem_map_of_mem (fun t => t.price) ht)
  · rw [hprice, div_le_iff htw]
    refine weighted_sum_le (fun t ht => weight_pos_of_mem_priceTargets ht) ?_
    intro t ht
    exact le_foldl_max_of_mem _ (List.mem_map_of_mem (fun t => t.price) ht)

/-- C10 witness: the bundle with only a one-entry Bollinger sequence
produces a non-empty candidate list, and the theorem applies to it. -/
theorem c10_target_within_candidates_witness :
    priceTargetsOf c10WitnessCalcs ≠ [] ∧
    (∃ lo ∈ (priceTargetsOf c10WitnessCalcs).map (fun t => t.price),
      ∃ hi ∈ (priceTargetsOf c10WitnessCalcs).map (fun t => t.price),
        (∀ p ∈ (priceTargetsOf c10WitnessCalcs).map (fun t => t.price),
          lo ≤ p ∧ p ≤ hi) ∧
        lo ≤ (calculateTargetPrice c10WitnessCalcs []).price ∧
        (calculateTargetPrice c10WitnessCalcs []).price ≤ hi) := by
  have hne : priceTargetsOf c10WitnessCalcs ≠ [] := by
    intro hx
    norm_num [priceTargetsOf, bbTargets, fibTargets, resTargets, supTargets,
      maTargets, c10WitnessCalcs] at hx
    exact List.cons_ne_nil _ _ hx
  exact ⟨hne, c10_target_within_candidates c10WitnessCalcs [] hne⟩
